import Mathlib

/-!
Verification of the session-protection module of the WlfRyt Google Calendar
desktop shell (src/session-protection.js), shallowly embedded in Lean 4.

Bytes are modelled as natural numbers below 256; byte strings (Node `Buffer`s
and JS strings alike) as `List Nat` of byte / character-code values.  External
platform collaborators (Node `crypto`, Electron `safeStorage`, JS `JSON`) are
modelled as executable Lean functions that are faithful to the interface the
module relies on; each such model carries a doc comment saying what it stands
in for.  Randomness (`crypto.randomBytes`) is supplied by explicit oracle
arguments, and operations that may throw in JavaScript take explicit failure
flags so the `try`/`catch` structure of the source can be followed branch by
branch.
-/

namespace SessionProtection

/-! ### Byte-list helpers -/

/-- Bytes drawn from the cryptographically secure random source
(`crypto.randomBytes(n)`): call number `i` of an oracle `rnd` yields the `n`
bytes `rnd i 0, rnd i 1, ...`, reduced mod 256 so that draws are bytes. -/
def randBytes (rnd : Nat → Nat → Nat) (i n : Nat) : List Nat :=
  (List.range n).map (fun j => rnd i j % 256)

/-- Pointwise XOR of two byte lists (truncating at the shorter, as a stream
cipher consumes exactly the plaintext's length of keystream). -/
def xorBytes (a b : List Nat) : List Nat := List.zipWith (· ^^^ ·) a b

/-! ### Hex encoding

`Buffer.prototype.toString('hex')` and `Buffer.from(str, 'hex')`: Node encodes
a byte as two lowercase hex digit characters, and decodes hex-digit pairs
greedily, stopping at the first invalid pair (it never throws). -/

/-- Character code of the lowercase hex digit for a value below 16. -/
def hexDigChar (d : Nat) : Nat := if d < 10 then 48 + d else 87 + d

/-- Value of a hex digit character (upper or lower case), if it is one. -/
def hexDigitVal (c : Nat) : Option Nat :=
  if 48 ≤ c ∧ c ≤ 57 then some (c - 48)
  else if 97 ≤ c ∧ c ≤ 102 then some (c - 87)
  else if 65 ≤ c ∧ c ≤ 70 then some (c - 55)
  else none

/-- Hex-encode a byte list as a list of character codes
(`buf.toString('hex')`). -/
def hexEncode : List Nat → List Nat
  | [] => []
  | b :: bs => hexDigChar (b / 16) :: hexDigChar (b % 16) :: hexEncode bs

/-- Decode a hex string (as character codes) to bytes, stopping at the first
invalid pair (`Buffer.from(str, 'hex')`). -/
def hexDecode : List Nat → List Nat
  | c1 :: c2 :: rest =>
    match hexDigitVal c1, hexDigitVal c2 with
    | some h, some l => (16 * h + l) :: hexDecode rest
    | _, _ => []
  | _ => []

/-! ### Self-delimiting natural-number encoding

Used by the JSON serialization model below: a natural number is written as its
base-255 digits (each below 255) followed by the terminator byte 255. -/

/-- Base-255 digits of `n`, little-endian, with explicit fuel (any fuel above
`n` is enough). -/
def natDigits : Nat → Nat → List Nat
  | 0, _ => []
  | _ + 1, 0 => []
  | fuel + 1, n + 1 => ((n + 1) % 255) :: natDigits fuel ((n + 1) / 255)

/-- Recombine little-endian base-255 digits. -/
def ofDigits : List Nat → Nat
  | [] => 0
  | d :: ds => d + 255 * ofDigits ds

/-- Encode a natural number as digits plus terminator. -/
def encNat (n : Nat) : List Nat := natDigits (n + 1) n ++ [255]

/-- Read digits up to the 255 terminator and return the value and the rest of
the input; fails on missing terminator. -/
def decNat : List Nat → Option (Nat × List Nat)
  | [] => none
  | b :: bs =>
    if b = 255 then some (0, bs)
    else match decNat bs with
      | some (m, rest) => some (b + 255 * m, rest)
      | none => none

/-! ### JSON values and their serialization

The payloads handled by `encrypt`/`decrypt` are JSON-serializable JavaScript
values.  `JSON.stringify` / `JSON.parse` are modelled as a canonical
self-delimiting byte serialization with a matching partial parser: the model
keeps the two properties the module relies on — parsing a serialized value
returns that value, and parsing arbitrary bytes can fail (a thrown
`SyntaxError`, modelled as `none`). -/

mutual

inductive Json : Type where
  | null : Json
  | bool (b : Bool) : Json
  | num (n : Int) : Json
  | str (s : List Nat) : Json
  | arr (xs : JsonArr) : Json
  | obj (xs : JsonObj) : Json
  deriving DecidableEq

inductive JsonArr : Type where
  | nil : JsonArr
  | cons (hd : Json) (tl : JsonArr) : JsonArr
  deriving DecidableEq

inductive JsonObj : Type where
  | nil : JsonObj
  | cons (key : List Nat) (val : Json) (tl : JsonObj) : JsonObj
  deriving DecidableEq

end

/-- Encode an integer: a sign byte then the magnitude. -/
def encInt (n : Int) : List Nat :=
  (if n < 0 then 1 else 0) :: encNat n.natAbs

/-- Decode an integer. -/
def decInt : List Nat → Option (Int × List Nat)
  | [] => none
  | s :: bs =>
    if s = 0 then
      match decNat bs with
      | some (m, rest) => some ((m : Int), rest)
      | none => none
    else if s = 1 then
      match decNat bs with
      | some (m, rest) => some (-(m : Int), rest)
      | none => none
    else none

mutual

/-- Serialize a JSON value (model of `JSON.stringify` followed by UTF-8
encoding of the resulting text). -/
def encodeJson : Json → List Nat
  | .null => [0]
  | .bool b => [1, if b then 1 else 0]
  | .num n => 2 :: encInt n
  | .str s => 3 :: (encNat s.length ++ s)
  | .arr xs => 4 :: (encodeArr xs ++ [5])
  | .obj xs => 6 :: (encodeObj xs ++ [7])

def encodeArr : JsonArr → List Nat
  | .nil => []
  | .cons hd tl => encodeJson hd ++ encodeArr tl

def encodeObj : JsonObj → List Nat
  | .nil => []
  | .cons k v tl => 8 :: (encNat k.length ++ k ++ encodeJson v ++ encodeObj tl)

end

mutual

/-- Fueled parser for a serialized JSON value; returns the value and the
remaining input, or `none` on malformed input. -/
def decodeJ : Nat → List Nat → Option (Json × List Nat)
  | 0, _ => none
  | _ + 1, [] => none
  | fuel + 1, b :: bs =>
    if b = 0 then some (.null, bs)
    else if b = 1 then
      match bs with
      | [] => none
      | c :: rest =>
        if c = 0 then some (.bool false, rest)
        else if c = 1 then some (.bool true, rest)
        else none
    else if b = 2 then
      match decInt bs with
      | some (n, rest) => some (.num n, rest)
      | none => none
    else if b = 3 then
      match decNat bs with
      | some (len, rest) =>
        if len ≤ rest.length then some (.str (rest.take len), rest.drop len) else none
      | none => none
    else if b = 4 then
      match decodeA fuel bs with
      | some (xs, rest) => some (.arr xs, rest)
      | none => none
    else if b = 6 then
      match decodeO fuel bs with
      | some (xs, rest) => some (.obj xs, rest)
      | none => none
    else none

def decodeA : Nat → List Nat → Option (JsonArr × List Nat)
  | 0, _ => none
  | _ + 1, [] => none
  | fuel + 1, b :: bs =>
    if b = 5 then some (.nil, bs)
    else
      match decodeJ fuel (b :: bs) with
      | some (j, rest) =>
        match decodeA fuel rest with
        | some (tl, rest') => some (.cons j tl, rest')
        | none => none
      | none => none

def decodeO : Nat → List Nat → Option (JsonObj × List Nat)
  | 0, _ => none
  | _ + 1, [] => none
  | fuel + 1, b :: bs =>
    if b = 7 then some (.nil, bs)
    else if b = 8 then
      match decNat bs with
      | some (klen, r1) =>
        if klen ≤ r1.length then
          match decodeJ fuel (r1.drop klen) with
          | some (v, r2) =>
            match decodeO fuel r2 with
            | some (tl, r3) => some (.cons (r1.take klen) v tl, r3)
            | none => none
          | none => none
        else none
      | none => none
    else none

end

mutual

/-- Fuel needed by the parser on the serialization of a value. -/
def depthJ : Json → Nat
  | .null => 1
  | .bool _ => 1
  | .num _ => 1
  | .str _ => 1
  | .arr xs => 1 + depthA xs
  | .obj xs => 1 + depthO xs

def depthA : JsonArr → Nat
  | .nil => 1
  | .cons hd tl => 1 + depthJ hd + depthA tl

def depthO : JsonObj → Nat
  | .nil => 1
  | .cons _ v tl => 1 + depthJ v + depthO tl

end

/-- Parse a serialized JSON value (model of `JSON.parse` applied to decrypted
text); fails — a thrown `SyntaxError`, modelled as `none` — on bytes that are
not exactly one serialized value. -/
def decodeJson (bs : List Nat) : Option Json :=
  match decodeJ (2 * bs.length + 2) bs with
  | some (j, []) => some j
  | _ => none

/-! ### Idealized AES-256-GCM

`crypto.createCipheriv('aes-256-gcm', key, iv)` /
`crypto.createDecipheriv(...)` are external library primitives; they are
modelled as an idealized authenticated stream cipher over byte lists with the
interface properties the module relies on: the keystream is a deterministic
function of (key, iv); ciphertext = plaintext XOR keystream; the
authentication tag is a deterministic function of (key, iv, ciphertext) that
is injective in the ciphertext for a fixed length, so verification rejects
any modified ciphertext or tag (for real GCM this holds except with
negligible probability; the model makes it absolute).  The cipher requires a
32-byte key (`createCipheriv` throws otherwise, caught by the module's
`try`/`catch`).  The model's tag has the ciphertext's length rather than
GCM's fixed 16 bytes; no claim below depends on the tag's length. -/

/-- Deterministic mixing of a byte list into an accumulator (internal to the
idealized cipher model). -/
def mixList (xs : List Nat) (a : Nat) : Nat := xs.foldl (fun acc b => acc * 257 + b + 1) a

/-- Idealized keyed pseudorandom byte, on domain `dom`, position `i`. -/
def prf (key iv : List Nat) (dom i : Nat) : Nat :=
  mixList key (mixList iv (dom * 131 + i * 7919 + 1)) % 256

/-- Encryption keystream of length `n` for (key, iv). -/
def keystream (key iv : List Nat) (n : Nat) : List Nat := (List.range n).map (prf key iv 0)

/-- Tag mask stream of length `n` for (key, iv). -/
def tagstream (key iv : List Nat) (n : Nat) : List Nat := (List.range n).map (prf key iv 1)

/-- Authentication tag over a ciphertext (idealized GHASH: injective in the
ciphertext at fixed length, so any modification is rejected). -/
def gcmTag (key iv ct : List Nat) : List Nat := xorBytes ct (tagstream key iv ct.length)

/-! ### Data model -/

/-- The security-settings record (`this.settings`), with its first-run
defaults from the constructor. -/
structure ProtectionSettings where
  requireBiometric : Bool
  lockOnMinimize : Bool
  autoLockMinutes : Nat
  secureClipboard : Bool
  preventScreenCapture : Bool
  deriving DecidableEq

/-- Constructor defaults for `this.settings`. -/
def defaultSettings : ProtectionSettings :=
  { requireBiometric := false
    lockOnMinimize := false
    autoLockMinutes := 30
    secureClipboard := true
    preventScreenCapture := false }

/-- A partial settings record (the `newSettings` argument of `saveSettings`):
absent fields leave the current value in place, as JS object spread does. -/
structure SettingsPatch where
  requireBiometric : Option Bool
  lockOnMinimize : Option Bool
  autoLockMinutes : Option Nat
  secureClipboard : Option Bool
  preventScreenCapture : Option Bool
  deriving DecidableEq

/-- The empty patch (no field present). -/
def emptyPatch : SettingsPatch :=
  { requireBiometric := none
    lockOnMinimize := none
    autoLockMinutes := none
    secureClipboard := none
    preventScreenCapture := none }

/-- JS object spread `{ ...current, ...patch }`. -/
def mergeSettings (cur : ProtectionSettings) (p : SettingsPatch) : ProtectionSettings :=
  { requireBiometric := p.requireBiometric.getD cur.requireBiometric
    lockOnMinimize := p.lockOnMinimize.getD cur.lockOnMinimize
    autoLockMinutes := p.autoLockMinutes.getD cur.autoLockMinutes
    secureClipboard := p.secureClipboard.getD cur.secureClipboard
    preventScreenCapture := p.preventScreenCapture.getD cur.preventScreenCapture }

/-- The result of an `encrypt` call.  The source stores `iv`, `data` and
`tag` hex-encoded; hex encoding is a bijection on byte strings
(`hexDecode_hexEncode` above), so the envelope is modelled at byte
granularity. -/
structure Envelope where
  iv : List Nat
  data : List Nat
  tag : List Nat
  v : Nat
  deriving DecidableEq

/-- The mutable state of a `SessionProtection` instance together with the
files it owns under its secure directory and the availability of the OS
secret capability (`safeStorage.isEncryptionAvailable()`, constant for a
given OS session). -/
structure SPState where
  isLocked : Bool
  lockTimeout : Option Nat
  lockTimeoutMs : Nat
  settings : ProtectionSettings
  keyFile : Option (List Nat)
  configFile : Option (List Nat)
  integrityFile : Option (List Nat)
  dirExists : Bool
  safeStorageAvail : Bool
  deriving DecidableEq

/-! ### OS secret capability

Electron `safeStorage.encryptString` / `decryptString`, modelled as an opaque
reversible container: encryption tags the payload; decryption recovers the
payload of a container and throws (modelled as `none`) on bytes that are not
a container, as DPAPI/Keychain does on a malformed blob. -/

/-- Model of `safeStorage.encryptString` (string given by its bytes). -/
def ssEncrypt (s : List Nat) : List Nat := 9 :: s

/-- Model of `safeStorage.decryptString`; `none` models the throw on a
malformed blob. -/
def ssDecrypt : List Nat → Option (List Nat)
  | 9 :: s => some s
  | _ => none

/-! ### Key Manager (`getSessionKey` / `saveSessionKey`) -/

/-- `saveSessionKey(key)`: OS-encrypted write when the capability is
available, raw fallback write otherwise; a thrown write error (`writeFail`)
is caught and logged, leaving the state unchanged. -/
def saveSessionKey (key : List Nat) (writeFail : Bool) (s : SPState) : SPState :=
  if s.safeStorageAvail then
    if writeFail then s else { s with keyFile := some (ssEncrypt key) }
  else
    if writeFail then s else { s with keyFile := some key }

/-- The regeneration path shared by the no-key-file branch and the `catch`
branch of `getSessionKey`: `crypto.randomBytes(32).toString('hex')`, then
`saveSessionKey`, then return the new key. -/
def regenKey (rnd : Nat → Nat → Nat) (writeFail : Bool) (s : SPState) : List Nat × SPState :=
  let newKey := hexEncode (randBytes rnd 0 32)
  (newKey, saveSessionKey newKey writeFail s)

/-- `getSessionKey()`.  `readFail` models a thrown I/O error while reading an
existing key file; a decryption throw is the `ssDecrypt = none` case.  Both
land in the source's `catch`, which regenerates. -/
def getSessionKey (rnd : Nat → Nat → Nat) (readFail writeFail : Bool) (s : SPState) :
    List Nat × SPState :=
  match s.keyFile with
  | some content =>
    if readFail then regenKey rnd writeFail s
    else if s.safeStorageAvail then
      match ssDecrypt content with
      | some k => (k, s)
      | none => regenKey rnd writeFail s
    else (content, s)
  | none => regenKey rnd writeFail s

/-! ### Cipher (`encrypt` / `decrypt`) -/

/-- `encrypt(data)`: JSON-serialize, draw a fresh 16-byte iv (`iv` is the
bytes returned by this call's `crypto.randomBytes(16)`), encrypt under the
hex-decoded session key, and wrap with the tag and version 2.  A throw
anywhere (notably `createCipheriv` on a key that is not 32 bytes) is caught
and `null` (`none`) is returned. -/
def encrypt (s : SPState) (payload : Json) (rnd : Nat → Nat → Nat)
    (readFail writeFail : Bool) (iv : List Nat) : Option Envelope × SPState :=
  let kr := getSessionKey rnd readFail writeFail s
  let key := hexDecode kr.1
  if key.length = 32 then
    let pt := encodeJson payload
    let ct := xorBytes pt (keystream key iv pt.length)
    (some { iv := iv, data := ct, tag := gcmTag key iv ct, v := 2 }, kr.2)
  else (none, kr.2)

/-- `decrypt(encryptedData)`: rebuild the decipher from the envelope's iv,
verify the tag, decrypt, JSON-parse.  Tag mismatch, a bad key, and a JSON
parse error all land in the source's `catch`, which returns `null`
(`none`). -/
def decrypt (s : SPState) (env : Envelope) (rnd : Nat → Nat → Nat)
    (readFail writeFail : Bool) : Option Json × SPState :=
  let kr := getSessionKey rnd readFail writeFail s
  let key := hexDecode kr.1
  if key.length = 32 then
    if env.tag = gcmTag key env.iv env.data then
      (decodeJson (xorBytes env.data (keystream key env.iv env.data.length)), kr.2)
    else (none, kr.2)
  else (none, kr.2)

/-! ### Lock State Machine -/

/-- `clearLockTimeout()`. -/
def clearLockTimeout (s : SPState) : SPState := { s with lockTimeout := none }

/-- `lock()`: set locked, cancel the pending timer (the best-effort
garbage-collection request has no observable state effect), return true. -/
def lock (s : SPState) : Bool × SPState :=
  (true, { s with isLocked := true, lockTimeout := none })

/-- `resetLockTimeout()`: cancel the pending timer and schedule a new one
with delay `lockTimeoutMs`; the pending timer is modelled as the delay it was
armed with. -/
def resetLockTimeout (s : SPState) : SPState :=
  { s with lockTimeout := some s.lockTimeoutMs }

/-- The scheduled timer firing after its delay elapses with no intervening
activity: it invokes `lock()`. -/
def fireLockTimeout (s : SPState) : SPState :=
  match s.lockTimeout with
  | some _ => (lock s).2
  | none => s

/-- `unlock(useBiometric)`.  `bioResult` is the answer of the external
biometric capability (`authenticateWithBiometrics()`), consulted only on the
branch that awaits it. -/
def unlock (useBiometric : Bool) (bioResult : Bool) (s : SPState) : Bool × SPState :=
  if useBiometric && s.settings.requireBiometric then
    if bioResult then (true, resetLockTimeout { s with isLocked := false })
    else (false, s)
  else (true, resetLockTimeout { s with isLocked := false })

/-! ### Settings Store -/

/-- Byte list of an ASCII string. -/
def strBytes (s : String) : List Nat := s.toList.map Char.toNat

/-- The JSON value `JSON.stringify(this.settings)` serializes. -/
def settingsToJson (st : ProtectionSettings) : Json :=
  .obj (.cons (strBytes "requireBiometric") (.bool st.requireBiometric)
    (.cons (strBytes "lockOnMinimize") (.bool st.lockOnMinimize)
      (.cons (strBytes "autoLockMinutes") (.num (st.autoLockMinutes : Int))
        (.cons (strBytes "secureClipboard") (.bool st.secureClipboard)
          (.cons (strBytes "preventScreenCapture") (.bool st.preventScreenCapture) .nil)))))

/-- `saveSettings(newSettings)`: merge the patch over the current settings,
recompute `lockTimeoutMs` (minutes × 60 × 1000), then persist OS-encrypted
when the capability is available.  A thrown encryption or write error
(`writeFail`) is caught: the call returns false, with the in-memory mutation
already applied (the source mutates before writing). -/
def saveSettings (p : SettingsPatch) (writeFail : Bool) (s : SPState) : Bool × SPState :=
  let ns := mergeSettings s.settings p
  let s1 := { s with settings := ns, lockTimeoutMs := ns.autoLockMinutes * 60000 }
  if s.safeStorageAvail then
    if writeFail then (false, s1)
    else (true, { s1 with configFile := some (ssEncrypt (encodeJson (settingsToJson ns))) })
  else (true, s1)

/-- `isSecureStorageAvailable()`. -/
def isSecureStorageAvailable (s : SPState) : Bool := s.safeStorageAvail

/-- The record returned by `getSecurityStatus()`. -/
structure SecurityStatus where
  isLocked : Bool
  secureStorageAvailable : Bool
  sessionProtected : Bool
  encryptionAlgorithm : String
  keyStorage : String
  autoLockMinutes : Nat
  integrityVerified : Bool
  settings : ProtectionSettings
  deriving DecidableEq

/-- `getSecurityStatus()`. -/
def getSecurityStatus (s : SPState) : SecurityStatus :=
  { isLocked := s.isLocked
    secureStorageAvailable := isSecureStorageAvailable s
    sessionProtected := s.keyFile.isSome
    encryptionAlgorithm := "AES-256-GCM"
    keyStorage := if s.safeStorageAvail then "OS Keychain (DPAPI/Keychain)"
      else "File-based (fallback)"
    autoLockMinutes := s.settings.autoLockMinutes
    integrityVerified := s.integrityFile.isSome
    settings := s.settings }

/-! ### Secure Eraser (`clearAllData`) -/

/-- Observable file-system effects of `clearAllData`, for stating the wipe
discipline.  Files are numbered 0 = key file, 1 = settings file,
2 = integrity record. -/
inductive FsEvent where
  | write (file : Nat) (content : List Nat)
  | unlink (file : Nat)
  | rmdir
  deriving DecidableEq

/-- `stats.size || 256`: the overwrite length used for a file with the given
content. -/
def wipeSize (content : List Nat) : Nat :=
  if content.length = 0 then 256 else content.length

/-- The inner `secureDelete(filePath)` closure on file number `idx`: if the
file exists, overwrite it three times with fresh random draws (call numbers
`3*idx`, `3*idx+1`, `3*idx+2` of the random source), then once with zero
bytes, then delete it. -/
def secureDelete (rnd : Nat → Nat → Nat) (idx : Nat) (content : Option (List Nat)) :
    Option (List Nat) × List FsEvent :=
  match content with
  | none => (none, [])
  | some c =>
    let sz := wipeSize c
    (none,
      [.write idx (randBytes rnd (3 * idx) sz),
       .write idx (randBytes rnd (3 * idx + 1) sz),
       .write idx (randBytes rnd (3 * idx + 2) sz),
       .write idx (List.replicate sz 0),
       .unlink idx])

/-- `clearAllData()`: securely delete the key file, settings file and
integrity record in order, then remove the secure directory recursively;
any thrown step lands in the single `catch`, which returns false with no
rollback.  `fail k` makes step `k` throw at its start (0, 1, 2 = the three
`secureDelete` calls, 3 = the directory removal). -/
def clearAllData (rnd : Nat → Nat → Nat) (fail : Nat → Bool) (s : SPState) :
    Bool × SPState × List FsEvent :=
  if fail 0 then (false, s, []) else
  let r0 := secureDelete rnd 0 s.keyFile
  let s0 := { s with keyFile := r0.1 }
  if fail 1 then (false, s0, r0.2) else
  let r1 := secureDelete rnd 1 s0.configFile
  let s1 := { s0 with configFile := r1.1 }
  if fail 2 then (false, s1, r0.2 ++ r1.2) else
  let r2 := secureDelete rnd 2 s1.integrityFile
  let s2 := { s1 with integrityFile := r2.1 }
  if fail 3 then (false, s2, r0.2 ++ r1.2 ++ r2.2) else
  if s2.dirExists then
    (true,
      { s2 with
          dirExists := false
          keyFile := none
          configFile := none
          integrityFile := none },
      r0.2 ++ r1.2 ++ r2.2 ++ [.rmdir])
  else (true, s2, r0.2 ++ r1.2 ++ r2.2)

/-! ### Concrete instances used to exercise the theorems -/

/-- A concrete 64-character hex session key (hex encoding of 32 zero
bytes). -/
def wkey : List Nat := hexEncode (List.replicate 32 0)

/-- A concrete deterministic stand-in for the random-byte oracle. -/
def wrnd : Nat → Nat → Nat := fun i j => i + j

/-- A concrete module state: unlocked, 30-minute timeout, OS secret
capability available, key file persisted OS-encrypted. -/
def wstate : SPState :=
  { isLocked := false
    lockTimeout := none
    lockTimeoutMs := 1800000
    settings := defaultSettings
    keyFile := some (ssEncrypt wkey)
    configFile := some (ssEncrypt (encodeJson (settingsToJson defaultSettings)))
    integrityFile := some (strBytes "main:abc")
    dirExists := true
    safeStorageAvail := true }

/-- A concrete JSON payload. -/
def wpayload : Json := .num 5

def wiv1 : List Nat := List.replicate 16 0

def wiv2 : List Nat := List.replicate 16 1

/-- The envelope produced by encrypting `wpayload` in `wstate` with iv
`wiv1`. -/
def wenv : Envelope :=
  ((encrypt wstate wpayload wrnd false false wiv1).1).getD
    { iv := [], data := [], tag := [], v := 0 }

/-- A locked state whose settings require biometric confirmation. -/
def wlockedState : SPState :=
  { wstate with
      isLocked := true
      settings := { defaultSettings with requireBiometric := true } }

/-- A state in which the OS secret capability is unavailable. -/
def wnoSSState : SPState :=
  { wstate with safeStorageAvail := false, keyFile := some wkey }

/-- Invariant on the key file: it is absent, or it holds a key the module
itself persisted through `saveSessionKey` — the hex encoding of 32 random
bytes, OS-encrypted exactly when the capability is available. -/
def keyFileInv (s : SPState) : Prop :=
  s.keyFile = none ∨ ∃ bs : List Nat, bs.length = 32 ∧
    s.keyFile = some (if s.safeStorageAvail then ssEncrypt (hexEncode bs) else hexEncode bs)

/-- `wstate` with no persisted key file. -/
def wfreshState : SPState := { wstate with keyFile := none }

/-- `wstate` with a key file that is not a valid OS-encrypted container. -/
def wcorruptState : SPState := { wstate with keyFile := some (strBytes "junk") }

/-! ## Lemmas and claims -/

theorem randBytes_length (rnd : Nat → Nat → Nat) (i n : Nat) :
    (randBytes rnd i n).length = n := by
  simp [randBytes]

theorem xorBytes_length (a b : List Nat) :
    (xorBytes a b).length = min a.length b.length := by
  simp [xorBytes]

theorem xorBytes_xorBytes_cancel : ∀ (a b : List Nat), b.length = a.length →
    xorBytes (xorBytes a b) b = a
  | [], [], _ => rfl
  | [], _ :: _, h => by simp at h
  | _ :: _, [], h => by simp at h
  | x :: a, y :: b, h => by
    have h' : b.length = a.length := by simpa using h
    show ((x ^^^ y) ^^^ y) :: xorBytes (xorBytes a b) b = x :: a
    rw [Nat.xor_cancel_right, xorBytes_xorBytes_cancel a b h']

theorem xorBytes_inj_left : ∀ (a a' b : List Nat), a.length = a'.length →
    a.length ≤ b.length → xorBytes a b = xorBytes a' b → a = a'
  | [], [], _, _, _, _ => rfl
  | [], _ :: _, _, h, _, _ => by simp at h
  | _ :: _, [], _, h, _, _ => by simp at h
  | x :: a, y :: a', b, h, hb, heq => by
    cases b with
    | nil => simp at hb
    | cons z b =>
      have h' : a.length = a'.length := by simpa using h
      have hb' : a.length ≤ b.length := by simpa using hb
      have heq' : ((x ^^^ z) :: xorBytes a b) = ((y ^^^ z) :: xorBytes a' b) := heq
      injection heq' with h1 h2
      rw [Nat.xor_left_injective h1, xorBytes_inj_left a a' b h' hb' h2]

theorem hexEncode_length : ∀ bs : List Nat, (hexEncode bs).length = 2 * bs.length
  | [] => rfl
  | _ :: bs => by
    simp only [hexEncode, List.length_cons, hexEncode_length bs]
    omega

theorem hexDigitVal_hexDigChar {d : Nat} (h : d < 16) :
    hexDigitVal (hexDigChar d) = some d := by
  rcases Nat.lt_or_ge d 10 with h10 | h10
  · have hc : hexDigChar d = 48 + d := by rw [hexDigChar, if_pos h10]
    rw [hc, hexDigitVal, if_pos (by omega)]
    congr 1
    omega
  · have hc : hexDigChar d = 87 + d := by rw [hexDigChar, if_neg (by omega)]
    rw [hc, hexDigitVal, if_neg (by omega), if_pos (by omega)]
    congr 1
    omega

theorem hexDecode_hexEncode : ∀ bs : List Nat, (∀ b ∈ bs, b < 256) →
    hexDecode (hexEncode bs) = bs
  | [], _ => rfl
  | b :: bs, h => by
    have hb : b < 256 := h b (List.mem_cons_self b bs)
    have h1 : b / 16 < 16 := by omega
    have h2 : b % 16 < 16 := Nat.mod_lt _ (by omega)
    show hexDecode (hexDigChar (b / 16) :: hexDigChar (b % 16) :: hexEncode bs) = b :: bs
    unfold hexDecode
    rw [hexDigitVal_hexDigChar h1, hexDigitVal_hexDigChar h2]
    simp only []
    rw [hexDecode_hexEncode bs (fun x hx => h x (List.mem_cons_of_mem _ hx))]
    congr 1
    omega

theorem natDigits_lt (fuel n : Nat) : ∀ d ∈ natDigits fuel n, d < 255 := by
  induction fuel generalizing n with
  | zero => intro d hd; simp [natDigits] at hd
  | succ fuel ih =>
    intro d hd
    cases n with
    | zero => simp [natDigits] at hd
    | succ m =>
      simp only [natDigits, List.mem_cons] at hd
      rcases hd with h | h
      · subst h; exact Nat.mod_lt _ (by omega)
      · exact ih _ d h

theorem ofDigits_natDigits : ∀ fuel n, n < fuel → ofDigits (natDigits fuel n) = n := by
  intro fuel
  induction fuel with
  | zero => intro n h; omega
  | succ fuel ih =>
    intro n h
    cases n with
    | zero => simp [natDigits, ofDigits]
    | succ m =>
      have hdiv : (m + 1) / 255 < fuel := by
        have : (m + 1) / 255 < m + 1 := Nat.div_lt_self (by omega) (by omega)
        omega
      simp only [natDigits, ofDigits, ih _ hdiv]
      omega

theorem decNat_append (ds : List Nat) (rest : List Nat) (h : ∀ d ∈ ds, d < 255) :
    decNat (ds ++ 255 :: rest) = some (ofDigits ds, rest) := by
  induction ds with
  | nil => simp [decNat, ofDigits]
  | cons d ds ih =>
    have hd : d < 255 := h d (List.mem_cons_self d ds)
    have : decNat (ds ++ 255 :: rest) = some (ofDigits ds, rest) :=
      ih (fun x hx => h x (List.mem_cons_of_mem _ hx))
    simp only [List.cons_append, decNat, if_neg (by omega : ¬d = 255), List.append_eq,
      this, ofDigits]

theorem decNat_encNat (n : Nat) (rest : List Nat) :
    decNat (encNat n ++ rest) = some (n, rest) := by
  have h := decNat_append (natDigits (n + 1) n) rest (natDigits_lt _ _)
  rw [ofDigits_natDigits _ _ (Nat.lt_succ_self n)] at h
  simpa [encNat] using h

theorem decInt_encInt (n : Int) (rest : List Nat) :
    decInt (encInt n ++ rest) = some (n, rest) := by
  rcases Int.lt_or_le n 0 with hneg | hpos
  · simp only [encInt, if_pos hneg, List.cons_append]
    simp [decInt, decNat_encNat, abs_of_neg hneg]
  · simp only [encInt, if_neg (by omega : ¬n < 0), List.cons_append]
    simp [decInt, decNat_encNat]
    omega

theorem encodeJson_head (j : Json) : ∃ b bs, encodeJson j = b :: bs ∧ b ≠ 5 := by
  cases j with
  | null => exact ⟨0, _, rfl, by omega⟩
  | bool b => exact ⟨1, _, rfl, by omega⟩
  | num n => exact ⟨2, _, rfl, by omega⟩
  | str s => exact ⟨3, _, rfl, by omega⟩
  | arr xs => exact ⟨4, _, rfl, by omega⟩
  | obj xs => exact ⟨6, _, rfl, by omega⟩

mutual

theorem decodeJ_enc : ∀ (j : Json) (fuel : Nat) (rest : List Nat), depthJ j ≤ fuel →
    decodeJ fuel (encodeJson j ++ rest) = some (j, rest)
  | .null, fuel, rest, h => by
    cases fuel with
    | zero => simp [depthJ] at h
    | succ f => simp [encodeJson, decodeJ]
  | .bool b, fuel, rest, h => by
    cases fuel with
    | zero => simp [depthJ] at h
    | succ f => cases b <;> simp [encodeJson, decodeJ]
  | .num n, fuel, rest, h => by
    cases fuel with
    | zero => simp [depthJ] at h
    | succ f =>
      simp [encodeJson, decodeJ, List.append_assoc, decInt_encInt]
  | .str s, fuel, rest, h => by
    cases fuel with
    | zero => simp [depthJ] at h
    | succ f =>
      simp [encodeJson, decodeJ, List.append_assoc, decNat_encNat, List.take_left,
        List.drop_left]
  | .arr xs, fuel, rest, h => by
    cases fuel with
    | zero => simp [depthJ] at h
    | succ f =>
      have hxs : depthA xs ≤ f := by simp [depthJ] at h; omega
      have hA := decodeA_enc xs f rest hxs
      simp [encodeJson, decodeJ, List.append_assoc, hA]
  | .obj xs, fuel, rest, h => by
    cases fuel with
    | zero => simp [depthJ] at h
    | succ f =>
      have hxs : depthO xs ≤ f := by simp [depthJ] at h; omega
      have hO := decodeO_enc xs f rest hxs
      simp [encodeJson, decodeJ, List.append_assoc, hO]

theorem decodeA_enc : ∀ (xs : JsonArr) (fuel : Nat) (rest : List Nat), depthA xs ≤ fuel →
    decodeA fuel (encodeArr xs ++ 5 :: rest) = some (xs, rest)
  | .nil, fuel, rest, h => by
    cases fuel with
    | zero => simp [depthA] at h
    | succ f => simp [encodeArr, decodeA]
  | .cons hd tl, fuel, rest, h => by
    cases fuel with
    | zero => simp [depthA] at h
    | succ f =>
      have hhd : depthJ hd ≤ f := by simp [depthA] at h; omega
      have htl : depthA tl ≤ f := by simp [depthA] at h; omega
      obtain ⟨b, bs, hb, hb5⟩ := encodeJson_head hd
      have hJ := decodeJ_enc hd f (encodeArr tl ++ 5 :: rest) hhd
      have hA := decodeA_enc tl f rest htl
      have hin : encodeArr (.cons hd tl) ++ 5 :: rest
          = b :: (bs ++ (encodeArr tl ++ 5 :: rest)) := by
        simp [encodeArr, hb, List.append_assoc]
      rw [hin, decodeA]
      rw [hb, List.cons_append] at hJ
      simp only [if_neg hb5, hJ, hA]

theorem decodeO_enc : ∀ (xs : JsonObj) (fuel : Nat) (rest : List Nat), depthO xs ≤ fuel →
    decodeO fuel (encodeObj xs ++ 7 :: rest) = some (xs, rest)
  | .nil, fuel, rest, h => by
    cases fuel with
    | zero => simp [depthO] at h
    | succ f => simp [encodeObj, decodeO]
  | .cons k v tl, fuel, rest, h => by
    cases fuel with
    | zero => simp [depthO] at h
    | succ f =>
      have hv : depthJ v ≤ f := by simp [depthO] at h; omega
      have htl : depthO tl ≤ f := by simp [depthO] at h; omega
      have hJ := decodeJ_enc v f (encodeObj tl ++ 7 :: rest) hv
      have hO := decodeO_enc tl f rest htl
      have hin : encodeObj (.cons k v tl) ++ 7 :: rest
          = 8 :: (encNat k.length ++ (k ++ (encodeJson v ++ (encodeObj tl ++ 7 :: rest)))) := by
        simp [encodeObj, List.append_assoc]
      rw [hin, decodeO]
      simp [decNat_encNat, List.take_left, List.drop_left, hJ, hO]

end

mutual

theorem depthJ_le : ∀ j : Json, depthJ j + 1 ≤ 2 * (encodeJson j).length
  | .null => by simp [depthJ, encodeJson]
  | .bool b => by simp [depthJ, encodeJson]
  | .num n => by simp [depthJ, encodeJson]
  | .str s => by simp [depthJ, encodeJson]
  | .arr xs => by
    have := depthA_le xs
    simp [depthJ, encodeJson]
    omega
  | .obj xs => by
    have := depthO_le xs
    simp [depthJ, encodeJson]
    omega

theorem depthA_le : ∀ xs : JsonArr, depthA xs ≤ 2 * (encodeArr xs).length + 2
  | .nil => by simp [depthA, encodeArr]
  | .cons hd tl => by
    have h1 := depthJ_le hd
    have h2 := depthA_le tl
    simp [depthA, encodeArr]
    omega

theorem depthO_le : ∀ xs : JsonObj, depthO xs ≤ 2 * (encodeObj xs).length + 2
  | .nil => by simp [depthO, encodeObj]
  | .cons k v tl => by
    have h1 := depthJ_le v
    have h2 := depthO_le tl
    simp [depthO, encodeObj]
    omega

end

theorem decodeJson_encodeJson (j : Json) : decodeJson (encodeJson j) = some j := by
  have h1 := depthJ_le j
  have h := decodeJ_enc j (2 * (encodeJson j).length + 2) [] (by omega)
  rw [List.append_nil] at h
  simp [decodeJson, h]

theorem keystream_length (key iv : List Nat) (n : Nat) : (keystream key iv n).length = n := by
  simp [keystream]

theorem tagstream_length (key iv : List Nat) (n : Nat) : (tagstream key iv n).length = n := by
  simp [tagstream]

theorem gcmTag_inj (key iv ct ct' : List Nat) (hlen : ct.length = ct'.length)
    (hne : ct ≠ ct') : gcmTag key iv ct ≠ gcmTag key iv ct' := by
  intro h
  apply hne
  rw [gcmTag, gcmTag, ← hlen] at h
  exact xorBytes_inj_left ct ct' (tagstream key iv ct.length) hlen
    (by rw [tagstream_length]) h

/-! ## Claims -/

/-- Claim C4 (code-bug demonstration at the failing input): after
`saveSettings({autoLockMinutes: 0})` — Auto-Lock: Never — `resetLockTimeout()`
still schedules a timer, with delay 0 ms, and that timer's firing invokes
`lock()`; the claim (and the source's own Never/Disabled UI) requires that no
timer be scheduled when the configured timeout is 0.  The `N > 0` half of the
claim does hold: with `autoLockMinutes = 15` the scheduled delay is 15
minutes (900000 ms) and its firing locks the session. -/
theorem C4_resetLockTimeout_zero_schedules_timer :
    ((resetLockTimeout
        (saveSettings { emptyPatch with autoLockMinutes := some 0 } false wstate).2).lockTimeout
      = some 0 ∧
     (fireLockTimeout (resetLockTimeout
        (saveSettings { emptyPatch with autoLockMinutes := some 0 } false wstate).2)).isLocked
      = true) ∧
    ((resetLockTimeout
        (saveSettings { emptyPatch with autoLockMinutes := some 15 } false wstate).2).lockTimeout
      = some 900000 ∧
     (fireLockTimeout (resetLockTimeout
        (saveSettings { emptyPatch with autoLockMinutes := some 15 } false wstate).2)).isLocked
      = true) :=
  ⟨⟨rfl, rfl⟩, rfl, rfl⟩

/-- Claim C5: when settings require biometric confirmation,
`unlock(useBiometric = true)` with a negative or unavailable biometric result
returns failure and leaves the state unchanged — in particular still
Locked. -/
theorem C5_unlock_biometric_denied (s : SPState)
    (hreq : s.settings.requireBiometric = true) (hlocked : s.isLocked = true) :
    (unlock true false s).1 = false ∧ (unlock true false s).2 = s ∧
      ((unlock true false s).2).isLocked = true := by
  simp [unlock, hreq, hlocked]

theorem C5_witness :
    wlockedState.settings.requireBiometric = true ∧ wlockedState.isLocked = true ∧
      ((unlock true false wlockedState).1 = false ∧
        (unlock true false wlockedState).2 = wlockedState ∧
        ((unlock true false wlockedState).2).isLocked = true) :=
  ⟨rfl, rfl, C5_unlock_biometric_denied wlockedState rfl rfl⟩

/-- Claim C6: even when settings require biometric confirmation, `unlock`
with `useBiometric = false` unlocks, restarts the inactivity timer and
returns success, and its outcome is independent of the biometric capability's
answer (the gate is applied only when the caller passes
`useBiometric = true`). -/
theorem C6_unlock_skips_biometric_gate (s : SPState)
    (_hreq : s.settings.requireBiometric = true) :
    (∀ b1 b2, unlock false b1 s = unlock false b2 s) ∧
    ∀ b, (unlock false b s).1 = true ∧
      ((unlock false b s).2).isLocked = false ∧
      ((unlock false b s).2).lockTimeout = some s.lockTimeoutMs := by
  constructor
  · intro b1 b2
    simp [unlock]
  · intro b
    simp [unlock, resetLockTimeout]

theorem C6_witness :
    wlockedState.settings.requireBiometric = true ∧
    unlock false true wlockedState = unlock false false wlockedState ∧
    ((unlock false true wlockedState).1 = true ∧
      ((unlock false true wlockedState).2).isLocked = false ∧
      ((unlock false true wlockedState).2).lockTimeout = some wlockedState.lockTimeoutMs) :=
  ⟨rfl, (C6_unlock_skips_biometric_gate wlockedState rfl).1 true false,
    (C6_unlock_skips_biometric_gate wlockedState rfl).2 true⟩

/-- Claim C9: `saveSettings` merges the partial record over the current
settings, recomputes the derived inactivity-timeout duration, persists
OS-encrypted when the capability is available, and returns false (without
throwing — it is a total function) on a write/encryption failure; when the
OS secret capability is unavailable, `saveSettings({autoLockMinutes: 15})`
succeeds and `getSecurityStatus().autoLockMinutes` reflects the in-memory
value even though persistence is degraded. -/
theorem C9_saveSettings_merge_and_degraded (s : SPState) (p : SettingsPatch)
    (writeFail : Bool) :
    ((saveSettings p writeFail s).2).settings = mergeSettings s.settings p ∧
    ((saveSettings p writeFail s).2).lockTimeoutMs
      = (mergeSettings s.settings p).autoLockMinutes * 60000 ∧
    (s.safeStorageAvail = true → writeFail = true →
      (saveSettings p writeFail s).1 = false) ∧
    (s.safeStorageAvail = true → writeFail = false →
      (saveSettings p writeFail s).1 = true ∧
      ((saveSettings p writeFail s).2).configFile
        = some (ssEncrypt (encodeJson (settingsToJson (mergeSettings s.settings p))))) ∧
    (s.safeStorageAvail = false →
      (saveSettings { emptyPatch with autoLockMinutes := some 15 } writeFail s).1 = true ∧
      (getSecurityStatus
          ((saveSettings { emptyPatch with autoLockMinutes := some 15 } writeFail s).2)).autoLockMinutes
        = 15) := by
  refine ⟨?_, ?_, ?_, ?_, ?_⟩
  · cases hA : s.safeStorageAvail <;> cases hW : writeFail <;> simp [saveSettings, hA, hW]
  · cases hA : s.safeStorageAvail <;> cases hW : writeFail <;> simp [saveSettings, hA, hW]
  · intro h1 h2
    subst h2
    unfold saveSettings
    rw [h1]
    simp
  · intro h1 h2
    subst h2
    unfold saveSettings
    rw [h1]
    simp
  · intro h1
    unfold saveSettings
    rw [h1]
    simp [mergeSettings, emptyPatch, getSecurityStatus]

theorem C9_witness :
    (saveSettings emptyPatch true wstate).1 = false ∧
    (saveSettings { emptyPatch with autoLockMinutes := some 15 } false wnoSSState).1 = true ∧
    (getSecurityStatus
        ((saveSettings { emptyPatch with autoLockMinutes := some 15 } false wnoSSState).2)).autoLockMinutes
      = 15 :=
  ⟨(C9_saveSettings_merge_and_degraded wstate emptyPatch true).2.2.1 rfl rfl,
    (C9_saveSettings_merge_and_degraded wnoSSState
      { emptyPatch with autoLockMinutes := some 15 } false).2.2.2.2 rfl⟩

/-- Claim C7: when no key file exists, `getSessionKey` generates 32
cryptographically-secure random bytes, hex-encodes them, persists the result
(OS-encrypted exactly when the capability is available) and returns it; and
on every execution path from a state whose key file is absent or was
persisted by the module itself (`keyFileInv` — including reading an existing
key file with the OS secret capability unavailable), the returned key is a
hex string of at least 64 characters, i.e. never shorter than 256 bits. -/
theorem C7_getSessionKey_never_short (s : SPState) (rnd : Nat → Nat → Nat)
    (readFail writeFail : Bool) (hinv : keyFileInv s) :
    (s.keyFile = none → writeFail = false →
      (getSessionKey rnd readFail writeFail s).1 = hexEncode (randBytes rnd 0 32) ∧
      ((getSessionKey rnd readFail writeFail s).2).keyFile
        = some (if s.safeStorageAvail then ssEncrypt (hexEncode (randBytes rnd 0 32))
            else hexEncode (randBytes rnd 0 32))) ∧
    64 ≤ ((getSessionKey rnd readFail writeFail s).1).length := by
  constructor
  · intro hnone hwf
    subst hwf
    cases hA : s.safeStorageAvail <;>
      simp [getSessionKey, hnone, regenKey, saveSessionKey, hA]
  · rcases hinv with hnone | ⟨bs, hlen, heq⟩
    · simp [getSessionKey, hnone, regenKey, hexEncode_length, randBytes_length]
    · cases hA : s.safeStorageAvail
      · rw [hA] at heq
        simp only [Bool.false_eq_true, if_false] at heq
        cases hR : readFail
        · simp [getSessionKey, heq, hA, hR, hexEncode_length, hlen]
        · simp [getSessionKey, heq, hA, hR, regenKey, hexEncode_length, randBytes_length]
      · rw [hA] at heq
        simp only [if_true] at heq
        cases hR : readFail
        · simp [getSessionKey, heq, hA, hR, ssDecrypt, ssEncrypt, hexEncode_length, hlen]
        · simp [getSessionKey, heq, hA, hR, regenKey, hexEncode_length, randBytes_length]

theorem C7_witness :
    keyFileInv wfreshState ∧
    ((getSessionKey wrnd false false wfreshState).1 = hexEncode (randBytes wrnd 0 32) ∧
      ((getSessionKey wrnd false false wfreshState).2).keyFile
        = some (if wfreshState.safeStorageAvail then ssEncrypt (hexEncode (randBytes wrnd 0 32))
            else hexEncode (randBytes wrnd 0 32))) ∧
    64 ≤ ((getSessionKey wrnd false false wfreshState).1).length :=
  ⟨Or.inl rfl,
    ((C7_getSessionKey_never_short wfreshState wrnd false false (Or.inl rfl)).1 rfl rfl),
    (C7_getSessionKey_never_short wfreshState wrnd false false (Or.inl rfl)).2⟩

/-- Claim C8: any I/O failure (`readFail`) or decryption failure
(`ssDecrypt = none`) while reading an existing key file is not propagated:
`getSessionKey` generates a fresh key — 32 random bytes, hex-encoded, so 64
characters = 256 bits — persists it, and returns it to the caller. -/
theorem C8_key_read_failure_regenerates (s : SPState) (rnd : Nat → Nat → Nat)
    (c : List Nat) (hfile : s.keyFile = some c) :
    (∀ writeFail, getSessionKey rnd true writeFail s
        = (hexEncode (randBytes rnd 0 32),
           saveSessionKey (hexEncode (randBytes rnd 0 32)) writeFail s)) ∧
    (s.safeStorageAvail = true → ssDecrypt c = none → ∀ writeFail,
      getSessionKey rnd false writeFail s
        = (hexEncode (randBytes rnd 0 32),
           saveSessionKey (hexEncode (randBytes rnd 0 32)) writeFail s)) ∧
    ((getSessionKey rnd true false s).2).keyFile
      = some (if s.safeStorageAvail then ssEncrypt (hexEncode (randBytes rnd 0 32))
          else hexEncode (randBytes rnd 0 32)) ∧
    (hexEncode (randBytes rnd 0 32)).length = 64 := by
  refine ⟨?_, ?_, ?_, ?_⟩
  · intro writeFail
    simp [getSessionKey, hfile, regenKey]
  · intro hA hdec writeFail
    simp [getSessionKey, hfile, hA, hdec, regenKey]
  · cases hA : s.safeStorageAvail <;>
      simp [getSessionKey, hfile, regenKey, saveSessionKey, hA]
  · simp [hexEncode_length, randBytes_length]

theorem C8_witness :
    wcorruptState.keyFile = some (strBytes "junk") ∧
    wcorruptState.safeStorageAvail = true ∧
    ssDecrypt (strBytes "junk") = none ∧
    getSessionKey wrnd false false wcorruptState
      = (hexEncode (randBytes wrnd 0 32),
         saveSessionKey (hexEncode (randBytes wrnd 0 32)) false wcorruptState) ∧
    getSessionKey wrnd true false wstate
      = (hexEncode (randBytes wrnd 0 32),
         saveSessionKey (hexEncode (randBytes wrnd 0 32)) false wstate) :=
  ⟨rfl, rfl, rfl,
    (C8_key_read_failure_regenerates wcorruptState wrnd (strBytes "junk") rfl).2.1
      rfl rfl false,
    (C8_key_read_failure_regenerates wstate wrnd (ssEncrypt wkey) rfl).1 false⟩

/-- Claim C10: `clearAllData`, for each of the key file, settings file and
integrity record that is present, overwrites its full byte length
(`stats.size || 256`) three times with bytes from three distinct fresh draws
of the random source, then once with all-zero bytes, then deletes the file;
after all three it removes the secure directory recursively and returns
true.  If a step throws, it returns false with no rollback: files already
erased stay erased. -/
theorem C10_clearAllData_wipe (s : SPState) (rnd : Nat → Nat → Nat)
    (ck cc ci : List Nat) (hk : s.keyFile = some ck) (hc : s.configFile = some cc)
    (hi : s.integrityFile = some ci) (hdir : s.dirExists = true) :
    (∀ fail, (∀ i, fail i = false) →
      (clearAllData rnd fail s).1 = true ∧
      ((clearAllData rnd fail s).2.1).keyFile = none ∧
      ((clearAllData rnd fail s).2.1).configFile = none ∧
      ((clearAllData rnd fail s).2.1).integrityFile = none ∧
      ((clearAllData rnd fail s).2.1).dirExists = false ∧
      (clearAllData rnd fail s).2.2 =
        [.write 0 (randBytes rnd 0 (wipeSize ck)),
         .write 0 (randBytes rnd 1 (wipeSize ck)),
         .write 0 (randBytes rnd 2 (wipeSize ck)),
         .write 0 (List.replicate (wipeSize ck) 0),
         .unlink 0,
         .write 1 (randBytes rnd 3 (wipeSize cc)),
         .write 1 (randBytes rnd 4 (wipeSize cc)),
         .write 1 (randBytes rnd 5 (wipeSize cc)),
         .write 1 (List.replicate (wipeSize cc) 0),
         .unlink 1,
         .write 2 (randBytes rnd 6 (wipeSize ci)),
         .write 2 (randBytes rnd 7 (wipeSize ci)),
         .write 2 (randBytes rnd 8 (wipeSize ci)),
         .write 2 (List.replicate (wipeSize ci) 0),
         .unlink 2,
         .rmdir]) ∧
    (∀ fail, fail 0 = false → fail 1 = false → fail 2 = true →
      (clearAllData rnd fail s).1 = false ∧
      ((clearAllData rnd fail s).2.1).keyFile = none ∧
      ((clearAllData rnd fail s).2.1).configFile = none ∧
      ((clearAllData rnd fail s).2.1).integrityFile = some ci) := by
  constructor
  · intro fail hfail
    simp [clearAllData, secureDelete, hk, hc, hi, hdir, hfail 0, hfail 1, hfail 2, hfail 3]
  · intro fail h0 h1 h2
    simp [clearAllData, secureDelete, hk, hc, hi, h0, h1, h2]

theorem C10_witness :
    wstate.keyFile = some (ssEncrypt wkey) ∧ wstate.dirExists = true ∧
    (clearAllData wrnd (fun _ => false) wstate).1 = true ∧
    ((clearAllData wrnd (fun _ => false) wstate).2.1).keyFile = none ∧
    ((clearAllData wrnd (fun _ => false) wstate).2.1).dirExists = false ∧
    (clearAllData wrnd (fun i => decide (i = 2)) wstate).1 = false ∧
    ((clearAllData wrnd (fun i => decide (i = 2)) wstate).2.1).keyFile = none ∧
    ((clearAllData wrnd (fun i => decide (i = 2)) wstate).2.1).integrityFile
      = some (strBytes "main:abc") := by
  have h := C10_clearAllData_wipe wstate wrnd (ssEncrypt wkey)
    (ssEncrypt (encodeJson (settingsToJson defaultSettings))) (strBytes "main:abc")
    rfl rfl rfl rfl
  have hs := h.1 (fun _ => false) (fun _ => rfl)
  have hf := h.2 (fun i => decide (i = 2)) rfl rfl rfl
  exact ⟨rfl, rfl, hs.1, hs.2.1, hs.2.2.2.2.1, hf.1, hf.2.1, hf.2.2.2⟩

theorem xorBytes_comm : ∀ a b : List Nat, xorBytes a b = xorBytes b a
  | [], [] => rfl
  | [], _ :: _ => rfl
  | _ :: _, [] => rfl
  | x :: a, y :: b => by
    show (x ^^^ y) :: xorBytes a b = (y ^^^ x) :: xorBytes b a
    rw [Nat.xor_comm, xorBytes_comm a b]

/-- Unmasking a masked byte list with the keystream of its own (unchanged)
length recovers the original bytes. -/
theorem unmask_mask (key iv bs : List Nat) :
    xorBytes (xorBytes bs (keystream key iv bs.length))
      (keystream key iv (xorBytes bs (keystream key iv bs.length)).length) = bs := by
  have hlen : (keystream key iv bs.length).length = bs.length := keystream_length _ _ _
  have hct : (xorBytes bs (keystream key iv bs.length)).length = bs.length := by
    rw [xorBytes_length, hlen, Nat.min_self]
  rw [hct]
  exact xorBytes_xorBytes_cancel bs _ hlen

/-- Reading the session key from a state whose key file holds the
OS-encrypted container of `kh`, with the capability available and no I/O
failure, returns `kh` and leaves the state unchanged. -/
theorem getSessionKey_container (s : SPState) (rnd : Nat → Nat → Nat)
    (writeFail : Bool) (kh : List Nat) (hfile : s.keyFile = some (ssEncrypt kh))
    (havail : s.safeStorageAvail = true) :
    getSessionKey rnd false writeFail s = (kh, s) := by
  simp [getSessionKey, hfile, havail, ssEncrypt, ssDecrypt]

/-- Claim C1: for every JSON-serializable payload P, encrypting P and
decrypting the resulting envelope under the same session key returns P. -/
theorem C1_encrypt_decrypt_roundtrip (s : SPState) (P : Json) (rnd : Nat → Nat → Nat)
    (iv kh : List Nat) (hfile : s.keyFile = some (ssEncrypt kh))
    (havail : s.safeStorageAvail = true) (hkey : (hexDecode kh).length = 32) :
    ∃ env, encrypt s P rnd false false iv = (some env, s) ∧
      decrypt s env rnd false false = (some P, s) := by
  have hk := getSessionKey_container s rnd false kh hfile havail
  refine ⟨{ iv := iv,
            data := xorBytes (encodeJson P)
              (keystream (hexDecode kh) iv (encodeJson P).length),
            tag := gcmTag (hexDecode kh) iv
              (xorBytes (encodeJson P) (keystream (hexDecode kh) iv (encodeJson P).length)),
            v := 2 }, ?_, ?_⟩
  · simp [encrypt, hk, hkey]
  · simp [decrypt, hk, hkey, unmask_mask, decodeJson_encodeJson]

theorem C1_witness :
    wstate.keyFile = some (ssEncrypt wkey) ∧ wstate.safeStorageAvail = true ∧
    (hexDecode wkey).length = 32 ∧
    ∃ env, encrypt wstate wpayload wrnd false false wiv1 = (some env, wstate) ∧
      decrypt wstate env wrnd false false = (some wpayload, wstate) :=
  ⟨rfl, rfl, by decide,
    C1_encrypt_decrypt_roundtrip wstate wpayload wrnd wiv1 wkey rfl rfl (by decide)⟩

/-- Claim C2: every modification of the ciphertext bytes (any change at
unchanged length) or of the authentication tag of an envelope produced by
`encrypt` makes `decrypt` return the failure sentinel `none` — never altered
plaintext; the JSON-parse-error path also collapses to the same `none`
outcome (third conjunct: an envelope whose tag verifies but whose plaintext
bytes are not a serialized JSON value), and `decrypt` is a total function, so
no exception reaches the caller. -/
theorem C2_decrypt_tamper_fails (s : SPState) (P : Json) (rnd : Nat → Nat → Nat)
    (iv kh : List Nat) (hfile : s.keyFile = some (ssEncrypt kh))
    (havail : s.safeStorageAvail = true) (hkey : (hexDecode kh).length = 32)
    (env : Envelope) (henc : encrypt s P rnd false false iv = (some env, s)) :
    (∀ ct', ct'.length = env.data.length → ct' ≠ env.data →
      decrypt s { env with data := ct' } rnd false false = (none, s)) ∧
    (∀ tag', tag' ≠ env.tag →
      decrypt s { env with tag := tag' } rnd false false = (none, s)) ∧
    (∀ bs, decodeJson bs = none →
      decrypt s
        { iv := iv,
          data := xorBytes bs (keystream (hexDecode kh) iv bs.length),
          tag := gcmTag (hexDecode kh) iv
            (xorBytes bs (keystream (hexDecode kh) iv bs.length)),
          v := 2 } rnd false false = (none, s)) := by
  have hk := getSessionKey_container s rnd false kh hfile havail
  have hvalid : encrypt s P rnd false false iv
      = (some { iv := iv,
                data := xorBytes (encodeJson P)
                  (keystream (hexDecode kh) iv (encodeJson P).length),
                tag := gcmTag (hexDecode kh) iv
                  (xorBytes (encodeJson P)
                    (keystream (hexDecode kh) iv (encodeJson P).length)),
                v := 2 }, s) := by
    simp [encrypt, hk, hkey]
  rw [henc] at hvalid
  have henv : env
      = { iv := iv,
          data := xorBytes (encodeJson P)
            (keystream (hexDecode kh) iv (encodeJson P).length),
          tag := gcmTag (hexDecode kh) iv
            (xorBytes (encodeJson P) (keystream (hexDecode kh) iv (encodeJson P).length)),
          v := 2 } := by
    have h1 := congrArg Prod.fst hvalid
    simpa using h1
  subst henv
  refine ⟨?_, ?_, ?_⟩
  · intro ct' hlen hne
    have htag : gcmTag (hexDecode kh) iv
        (xorBytes (encodeJson P) (keystream (hexDecode kh) iv (encodeJson P).length))
        ≠ gcmTag (hexDecode kh) iv ct' :=
      gcmTag_inj _ _ _ _ (by rw [hlen]) (Ne.symm hne)
    simp [decrypt, hk, hkey, htag]
  · intro tag' hne
    simp only [] at hne
    simp [decrypt, hk, hkey, hne]
  · intro bs hbs
    simp [decrypt, hk, hkey, unmask_mask, hbs]

set_option maxRecDepth 40000 in
theorem C2_witness :
    encrypt wstate wpayload wrnd false false wiv1 = (some wenv, wstate) ∧
    (wenv.data.map (fun b => b + 1)).length = wenv.data.length ∧
    wenv.data.map (fun b => b + 1) ≠ wenv.data ∧
    decrypt wstate { wenv with data := wenv.data.map (fun b => b + 1) } wrnd false false
      = (none, wstate) ∧
    decrypt wstate { wenv with tag := wenv.tag.map (fun b => b + 1) } wrnd false false
      = (none, wstate) ∧
    decodeJson [255] = none ∧
    decrypt wstate
      { iv := wiv1,
        data := xorBytes [255] (keystream (hexDecode wkey) wiv1 ([255] : List Nat).length),
        tag := gcmTag (hexDecode wkey) wiv1
          (xorBytes [255] (keystream (hexDecode wkey) wiv1 ([255] : List Nat).length)),
        v := 2 } wrnd false false = (none, wstate) := by
  have h := C2_decrypt_tamper_fails wstate wpayload wrnd wiv1 wkey rfl rfl (by decide)
    wenv (by rfl)
  exact ⟨by rfl, by simp, by decide,
    h.1 (wenv.data.map (fun b => b + 1)) (by simp) (by decide),
    h.2.1 (wenv.tag.map (fun b => b + 1)) (by decide),
    by decide,
    h.2.2 [255] (by decide)⟩

/-- Claim C3: two successive `encrypt(P)` calls whose `crypto.randomBytes(16)`
draws differ produce envelopes with the two distinct drawn ivs (each call
embeds its own fresh draw verbatim, so an iv is never reused across calls
with distinct draws), and their ciphertexts differ whenever the cipher
keystreams derived from the two ivs differ (true for AES-GCM except with
negligible probability, and checked concretely in the witness). -/
theorem C3_fresh_iv_distinct_ciphertexts (s : SPState) (P : Json)
    (rnd : Nat → Nat → Nat) (iv1 iv2 kh : List Nat)
    (hfile : s.keyFile = some (ssEncrypt kh)) (havail : s.safeStorageAvail = true)
    (hkey : (hexDecode kh).length = 32) (hne : iv1 ≠ iv2) :
    ∃ e1 e2,
      encrypt s P rnd false false iv1 = (some e1, s) ∧
      encrypt s P rnd false false iv2 = (some e2, s) ∧
      e1.iv = iv1 ∧ e2.iv = iv2 ∧ e1.iv ≠ e2.iv ∧
      (keystream (hexDecode kh) iv1 (encodeJson P).length
          ≠ keystream (hexDecode kh) iv2 (encodeJson P).length →
        e1.data ≠ e2.data) := by
  have hk := getSessionKey_container s rnd false kh hfile havail
  refine ⟨{ iv := iv1,
            data := xorBytes (encodeJson P)
              (keystream (hexDecode kh) iv1 (encodeJson P).length),
            tag := gcmTag (hexDecode kh) iv1
              (xorBytes (encodeJson P) (keystream (hexDecode kh) iv1 (encodeJson P).length)),
            v := 2 },
          { iv := iv2,
            data := xorBytes (encodeJson P)
              (keystream (hexDecode kh) iv2 (encodeJson P).length),
            tag := gcmTag (hexDecode kh) iv2
              (xorBytes (encodeJson P) (keystream (hexDecode kh) iv2 (encodeJson P).length)),
            v := 2 },
          ?_, ?_, rfl, rfl, hne, ?_⟩
  · simp [encrypt, hk, hkey]
  · simp [encrypt, hk, hkey]
  · intro hks heq
    apply hks
    simp only [] at heq
    rw [xorBytes_comm (encodeJson P) (keystream (hexDecode kh) iv1 (encodeJson P).length),
      xorBytes_comm (encodeJson P) (keystream (hexDecode kh) iv2 (encodeJson P).length)]
      at heq
    exact xorBytes_inj_left _ _ (encodeJson P)
      (by rw [keystream_length, keystream_length])
      (by rw [keystream_length]) heq

set_option maxRecDepth 40000 in
theorem C3_witness :
    wiv1 ≠ wiv2 ∧
    keystream (hexDecode wkey) wiv1 (encodeJson wpayload).length
      ≠ keystream (hexDecode wkey) wiv2 (encodeJson wpayload).length ∧
    ∃ e1 e2,
      encrypt wstate wpayload wrnd false false wiv1 = (some e1, wstate) ∧
      encrypt wstate wpayload wrnd false false wiv2 = (some e2, wstate) ∧
      e1.iv ≠ e2.iv ∧ e1.data ≠ e2.data := by
  obtain ⟨e1, e2, h1, h2, _, _, hiv, himp⟩ :=
    C3_fresh_iv_distinct_ciphertexts wstate wpayload wrnd wiv1 wiv2 wkey rfl rfl
      (by decide) (by decide)
  exact ⟨by decide, by decide, e1, e2, h1, h2, hiv, himp (by decide)⟩

end SessionProtection
